import Mathlib

/-!
Verification development for the OCCT STEP viewer component
(`src/occt-vue-demo/src/components/OcctImportDemo.vue`).

The component's logic is embedded shallowly:

* `selectImport` / `processFile` embed the extension dispatch and the
  import-call error handling of `processFile`;
* `buildMesh` / `processRecords` / `renderModel` embed the per-record
  materialization loop of `renderModel`, including the validity check,
  index element width selection, typed-array index wrapping and material
  color selection;
* `meshBBox` / `sceneBBox` / `fitCamera` / `resetPose` embed the bounding
  box union and camera fitting of `renderModel` and `resetCameraView`;
* `clearModelRun` embeds `clearModel`, and `teardownEvents` embeds the
  `onBeforeUnmount` teardown as an event trace.

Scalar values (JS numbers) are modelled by `ℚ`, which is exact for every
arithmetic operation the component performs on the inputs considered here;
typed-array element conversion is modelled by explicit `% 2 ^ w`.
-/

namespace OcctViewer

/-- One tessellated sub-part of the import result.  A `none` field models a
missing/undefined field in the JS record (the code only ever tests the
chained presence `meshData.attributes?.position?.array` before using the
array, so the optional chain is collapsed into one `Option`). -/
structure MeshRecord where
  name : Option String
  position : Option (List ℚ)
  normal : Option (List ℚ)
  index : Option (List Nat)
  color : Option (List Nat)
deriving DecidableEq

/-- Output shape of the external CAD-import call
`importFunction(fileContent, params)`. -/
structure ImportResult where
  success : Bool
  error : Option String
  meshes : List MeshRecord
deriving DecidableEq

/-- Validity test performed by `renderModel`'s forEach body:
`!meshData.attributes?.position?.array || !meshData.index?.array` skips the
record.  (A present-but-empty array is truthy in JS, hence valid here.) -/
def isValidRecord (m : MeshRecord) : Bool :=
  m.position.isSome && m.index.isSome

/-- Element width of the index buffer:
`new (positions.length / 3 > 65535 ? Uint32Array : Uint16Array)(...)`.
JS division is exact real division, modelled in `ℚ`. -/
def indexElemBits (posLen : Nat) : Nat :=
  if (65535 : ℚ) < (posLen : ℚ) / 3 then 32 else 16

/-- Default material color `0xcccccc`: THREE.Color stores each byte channel
divided by 255, giving (204/255, 204/255, 204/255). -/
def defaultColor : ℚ × ℚ × ℚ :=
  (204 / 255, 204 / 255, 204 / 255)

/-- Material color selection: `meshData.color && meshData.color.length === 3`
uses `new THREE.Color(...meshData.color.map(c => c / 255))`, otherwise the
default light-gray material. -/
def materialColor : Option (List Nat) → ℚ × ℚ × ℚ
  | some [r, g, b] => ((r : ℚ) / 255, (g : ℚ) / 255, (b : ℚ) / 255)
  | _ => defaultColor

/-- A materialized mesh: `THREE.Mesh(geometry, material)` as added to the
model group.  `normals = none` records that the component fell back to
`geometry.computeVertexNormals()`. -/
structure RenderableMesh where
  positions : List ℚ
  normals : Option (List ℚ)
  indexBits : Nat
  indices : List Nat
  color : ℚ × ℚ × ℚ
deriving DecidableEq

/-- The per-record body of `renderModel`'s forEach: `none` when the record is
skipped, otherwise the materialized mesh.  Index values pass through the
`Uint16Array`/`Uint32Array` constructor, i.e. are reduced `mod 2 ^ w`
(JS `ToUint16`/`ToUint32`); they are never checked against the vertex
count. -/
def buildMesh (m : MeshRecord) : Option RenderableMesh :=
  match m.position, m.index with
  | some pos, some idx =>
    let bits := indexElemBits pos.length
    some { positions := pos
           normals := m.normal
           indexBits := bits
           indices := idx.map (fun v => v % 2 ^ bits)
           color := materialColor m.color }
  | _, _ => none

/-- Diagnostic emitted for a skipped record:
`console.warn(Skipping invalid mesh: ${meshData.name})`; an undefined name
renders as the string "undefined" in a JS template literal. -/
def skipWarning (m : MeshRecord) : String :=
  ("Skipping invalid mesh: ") ++ m.name.getD ("undefined")

/-- The forEach over `importResult.meshes`: accumulates materialized meshes
(in order) and one warning per skipped record. -/
def processRecords : List MeshRecord → List RenderableMesh × List String
  | [] => ([], [])
  | m :: rest =>
    let p := processRecords rest
    match buildMesh m with
    | some rm => (rm :: p.1, p.2)
    | none => (p.1, skipWarning m :: p.2)

/-- 3-component vector of exact scalars. -/
abbrev Vec3 : Type := ℚ × ℚ × ℚ

/-- Axis-aligned bounding box (`THREE.Box3`); the empty box is modelled as
`none : Option BBox3`. -/
structure BBox3 where
  lo : Vec3
  hi : Vec3
deriving DecidableEq

/-- `Box3.expandByPoint`. -/
def expandPoint : Option BBox3 → Vec3 → Option BBox3
  | none, p => some ⟨p, p⟩
  | some b, p =>
    some ⟨(min b.lo.1 p.1, min b.lo.2.1 p.2.1, min b.lo.2.2 p.2.2),
          (max b.hi.1 p.1, max b.hi.2.1 p.2.1, max b.hi.2.2 p.2.2)⟩

/-- Group a flat coordinate list into the points a position attribute of
item size 3 exposes (`Box3.setFromBufferAttribute` reads
`count = length / 3` points; a trailing partial triple is ignored). -/
def triples : List ℚ → List Vec3
  | x :: y :: z :: rest => (x, y, z) :: triples rest
  | _ => []

/-- `Box3.setFromObject(mesh)` for a mesh with identity transform: the box of
the geometry's position attribute, empty when there are no vertices. -/
def meshBBox (rm : RenderableMesh) : Option BBox3 :=
  (triples rm.positions).foldl expandPoint none

/-- `Box3.union`: the empty box is the neutral element. -/
def unionBoxes : Option BBox3 → Option BBox3 → Option BBox3
  | none, b => b
  | some b, none => some b
  | some a, some b =>
    some ⟨(min a.lo.1 b.lo.1, min a.lo.2.1 b.lo.2.1, min a.lo.2.2 b.lo.2.2),
          (max a.hi.1 b.hi.1, max a.hi.2.1 b.hi.2.1, max a.hi.2.2 b.hi.2.2)⟩

/-- The bounding box accumulated over the forEach:
`bbox.setFromObject(mesh)` for the first materialized mesh, then
`bbox.union(new THREE.Box3().setFromObject(mesh))` for the rest.  Starting
the fold from the empty box is equivalent, since union with the empty box
is the identity. -/
def sceneBBox (ms : List RenderableMesh) : Option BBox3 :=
  ms.foldl (fun acc rm => unionBoxes acc (meshBBox rm)) none

/-- Camera/orbit-controls pose produced by the fitting code.
`controlsSynced` records that `controls.update()` was called after setting
the target. -/
structure CameraPose where
  position : Vec3
  lookTarget : Vec3
  controlsTarget : Vec3
  controlsSynced : Bool
deriving DecidableEq

/-- `resetCameraView()`: camera at (5,5,5) looking at the origin, orbit
target at the origin, controls resynchronized. -/
def resetPose : CameraPose :=
  ⟨(5, 5, 5), (0, 0, 0), (0, 0, 0), true⟩

/-- The non-empty-box branch of `renderModel`'s camera fitting, with
`tanHalfFov` standing for the value `Math.tan(fov / 2)` computed from the
camera's vertical field of view, and `aspect` the camera aspect ratio. -/
def fitCamera (box : BBox3) (tanHalfFov aspect : ℚ) : CameraPose :=
  let center : Vec3 :=
    ((box.lo.1 + box.hi.1) / 2, (box.lo.2.1 + box.hi.2.1) / 2,
     (box.lo.2.2 + box.hi.2.2) / 2)
  let size : Vec3 :=
    (box.hi.1 - box.lo.1, box.hi.2.1 - box.lo.2.1, box.hi.2.2 - box.lo.2.2)
  let maxDim := max size.1 (max size.2.1 size.2.2)
  let dist0 := |maxDim / 2 / tanHalfFov|
  let dist := dist0 * (if 1 < aspect then aspect else 1)
  ⟨(center.1, center.2.1 + dist * (1 / 2), center.2.2 + dist),
   center, center, true⟩

/-- Everything `renderModel` leaves behind: the model group's meshes, the
skip warnings, and the camera/controls pose. -/
structure RenderOutcome where
  meshes : List RenderableMesh
  warnings : List String
  camera : CameraPose
deriving DecidableEq

/-- `renderModel(importResult)` (scene already initialized, previous model
cleared): early camera reset when `meshes.length === 0`, otherwise the
forEach followed by the `bbox.isEmpty()` branch. -/
def renderModel (r : ImportResult) (tanHalfFov aspect : ℚ) : RenderOutcome :=
  if r.meshes.length = 0 then ⟨[], [], resetPose⟩
  else
    let p := processRecords r.meshes
    match sceneBBox p.1 with
    | none => ⟨p.1, p.2, resetPose⟩
    | some box => ⟨p.1, p.2, fitCamera box tanHalfFov aspect⟩

/-- The three import entry points of the external capability. -/
inductive ImportEntry where
  | step
  | iges
  | brep
deriving DecidableEq

def extStep : List Char := (".step").toList

def extStp : List Char := (".stp").toList

def extIges : List Char := (".iges").toList

def extIgs : List Char := (".igs").toList

def extBrep : List Char := (".brep").toList

/-- `selectedFile.value.name.toLowerCase()`. -/
def lowerName (n : List Char) : List Char :=
  n.map Char.toLower

/-- The `if`/`else if` extension chain of `processFile`, applied to the
already-lowercased name. -/
def dispatchLower (f : List Char) : Option ImportEntry :=
  if extStep.isSuffixOf f || extStp.isSuffixOf f then some ImportEntry.step
  else if extIges.isSuffixOf f || extIgs.isSuffixOf f then some ImportEntry.iges
  else if extBrep.isSuffixOf f then some ImportEntry.brep
  else none

/-- Extension dispatch of `processFile`: lowercase the file name, then run
the `endsWith` chain. -/
def selectImport (n : List Char) : Option ImportEntry :=
  dispatchLower (lowerName n)

def unsupportedMsg : String :=
  "Unsupported file type. Please select .step, .iges, or .brep."

def importFailedMsg : String := "Import failed: "

def unknownErrorMsg : String := "Unknown error."

def importExnMsg : String := "Error during OCCT import: "

/-- JS `s || fallback` for an optional string: `undefined`/`null` and the
empty string are falsy, so all three select the fallback. -/
def orElseFalsy (s : Option String) (fb : String) : String :=
  match s with
  | some e => if e = "" then fb else e
  | none => fb

/-- User-visible state left by one `processFile` run. -/
structure ProcessOutcome where
  errorMsg : Option String
  resultVal : Option ImportResult
  invoked : Option ImportEntry
  modelGroup : List RenderableMesh
  warnings : List String

/-- `processFile()` after the file content is loaded: the model group is
cleared up front, then extension dispatch; `call` is the selected external
entry point, returning either an `ImportResult` or a thrown exception
message (caught by the surrounding `try`/`catch`).  Failure paths leave the
model group empty. -/
def processFile (n : List Char) (call : ImportEntry → Except String ImportResult)
    (tanHalfFov aspect : ℚ) : ProcessOutcome :=
  match selectImport n with
  | none => ⟨some unsupportedMsg, none, none, [], []⟩
  | some entry =>
    match call entry with
    | Except.error msg => ⟨some (importExnMsg ++ msg), none, some entry, [], []⟩
    | Except.ok r =>
      if r.success then
        let out := renderModel r tanHalfFov aspect
        ⟨none, some r, some entry, out.meshes, out.warnings⟩
      else
        ⟨some (importFailedMsg ++ orElseFalsy r.error unknownErrorMsg),
         some r, some entry, [], []⟩

/-- Observable teardown/cleanup actions, tagged by mesh identity where
relevant. -/
inductive TEvent where
  | cancelFrame
  | disposeRenderer
  | disposeControls
  | removeFromGroup (i : Nat)
  | disposeGeometry (i : Nat)
  | disposeMaterial (i : Nat)
  | dropSceneRefs
deriving DecidableEq

/-- `clearModel()`: while the group is non-empty, remove its first child and
dispose its geometry and (non-array) material.  Returns the final children
list and the emitted events.  Total: the empty group simply skips the
loop. -/
def clearModelRun : List Nat → List Nat × List TEvent
  | [] => ([], [])
  | i :: rest =>
    let p := clearModelRun rest
    (p.1,
     TEvent.removeFromGroup i :: TEvent.disposeGeometry i ::
       TEvent.disposeMaterial i :: p.2)

/-- Component state at unmount time: which resources exist, and the ids of
the meshes reachable from the scene (all of them live in the model group). -/
structure ViewerState where
  animFrame : Bool
  renderer : Bool
  controls : Bool
  sceneMeshes : Option (List Nat)
deriving DecidableEq

/-- The geometry/material disposals emitted by `scene.traverse` over the
meshes, in traversal order. -/
def meshDisposeEvents (ids : List Nat) : List TEvent :=
  ids.flatMap (fun i => [TEvent.disposeGeometry i, TEvent.disposeMaterial i])

/-- The `onBeforeUnmount` hook as an event trace: cancel the pending
animation frame, dispose the renderer, dispose the controls, traverse the
scene disposing each mesh's geometry and material, then null the
scene/camera/model-group references. -/
def teardownEvents (s : ViewerState) : List TEvent :=
  (if s.animFrame then [TEvent.cancelFrame] else [])
    ++ (if s.renderer then [TEvent.disposeRenderer] else [])
    ++ (if s.controls then [TEvent.disposeControls] else [])
    ++ (match s.sceneMeshes with
        | none => []
        | some ids => meshDisposeEvents ids)
    ++ [TEvent.dropSceneRefs]

/-- Event class tests used to count disposals. -/
def isGeomDispose : TEvent → Bool
  | TEvent.disposeGeometry _ => true
  | _ => false

def isMatDispose : TEvent → Bool
  | TEvent.disposeMaterial _ => true
  | _ => false

/-- A record whose `position.array` and `index.array` are present but empty:
valid per the code's truthiness check, yet contributing no vertices. -/
def emptyArraysRecord : MeshRecord :=
  ⟨none, some [], none, some [], none⟩

/-- A successful import whose only mesh record has empty arrays. -/
def emptyMeshResult : ImportResult :=
  ⟨true, none, [emptyArraysRecord]⟩

/-- A well-formed single triangle. -/
def triPos : List ℚ := [0, 0, 0, 1, 0, 0, 0, 1, 0]

/-- A valid record: a red triangle. -/
def triRecord : MeshRecord :=
  ⟨some ("tri"), some triPos, none, some [0, 1, 2], some [255, 0, 0]⟩

/-- An invalid record: no position data. -/
def badRecord : MeshRecord :=
  ⟨some ("bad"), none, none, some [0, 1, 2], none⟩

/-- A successful import holding one valid and one invalid record. -/
def mixedResult : ImportResult :=
  ⟨true, none, [triRecord, badRecord]⟩

/-- A valid record with a single vertex but triangle indices far out of
range. -/
def wrapRecord : MeshRecord :=
  ⟨none, some [0, 0, 0], none, some [0, 1, 70000], none⟩

/-- A valid record carrying the color [255, 0, 128]. -/
def magentaRecord : MeshRecord :=
  ⟨none, some [0, 0, 0], none, some [0], some [255, 0, 128]⟩

/-- A valid record holding exactly one vertex at (2, 3, 4). -/
def dotRecord : MeshRecord :=
  ⟨none, some [2, 3, 4], none, some [0], none⟩

/-- A successful import whose only record is `dotRecord`. -/
def dotResult : ImportResult :=
  ⟨true, none, [dotRecord]⟩

/-! ### Helper lemmas -/

/-- The ℚ comparison `positions.length / 3 > 65535` cleared of the
denominator. -/
theorem indexElemBits_eq (n : Nat) :
    indexElemBits n = if 196605 < n then 32 else 16 := by
  unfold indexElemBits
  have h : ((65535 : ℚ) < (n : ℚ) / 3) ↔ 196605 < n := by
    rw [lt_div_iff₀ (by norm_num : (0 : ℚ) < 3)]
    norm_cast
  simp only [h]

theorem buildMesh_eq_some (m : MeshRecord) (pos : List ℚ) (idx : List Nat)
    (hp : m.position = some pos) (hi : m.index = some idx) :
    buildMesh m =
      some { positions := pos
             normals := m.normal
             indexBits := indexElemBits pos.length
             indices := idx.map (fun v => v % 2 ^ indexElemBits pos.length)
             color := materialColor m.color } := by
  unfold buildMesh
  rw [hp, hi]

theorem buildMesh_isSome_iff (m : MeshRecord) :
    (buildMesh m).isSome = true ↔ isValidRecord m = true := by
  unfold buildMesh isValidRecord
  cases hp : m.position <;> cases hi : m.index <;> simp

theorem buildMesh_eq_none_iff (m : MeshRecord) :
    buildMesh m = none ↔ isValidRecord m = false := by
  rw [← Option.not_isSome_iff_eq_none]
  rw [← Bool.not_eq_true (isValidRecord m)]
  exact not_congr (by exact_mod_cast buildMesh_isSome_iff m)

theorem processRecords_fst (l : List MeshRecord) :
    (processRecords l).1 = l.filterMap buildMesh := by
  induction l with
  | nil => rfl
  | cons m rest ih =>
    unfold processRecords
    cases hb : buildMesh m <;> simp [hb, ih]

theorem processRecords_snd (l : List MeshRecord) :
    (processRecords l).2 =
      (l.filter (fun m => !isValidRecord m)).map skipWarning := by
  induction l with
  | nil => rfl
  | cons m rest ih =>
    unfold processRecords
    cases hb : buildMesh m with
    | none =>
      have hv : isValidRecord m = false := (buildMesh_eq_none_iff m).mp hb
      simp [hb, hv, ih]
    | some rm =>
      have hv : isValidRecord m = true := by
        rw [← buildMesh_isSome_iff]; rw [hb]; rfl
      simp [hb, hv, ih]

theorem length_filterMap_buildMesh (l : List MeshRecord) :
    (l.filterMap buildMesh).length =
      (l.filter (fun m => isValidRecord m)).length := by
  induction l with
  | nil => rfl
  | cons m rest ih =>
    cases hb : buildMesh m with
    | none =>
      have hv : isValidRecord m = false := (buildMesh_eq_none_iff m).mp hb
      simp [hb, hv, ih]
    | some rm =>
      have hv : isValidRecord m = true := by
        rw [← buildMesh_isSome_iff]; rw [hb]; rfl
      simp [hb, hv, ih]

theorem renderModel_meshes (r : ImportResult) (t a : ℚ) :
    (renderModel r t a).meshes = (processRecords r.meshes).1 := by
  unfold renderModel
  by_cases h : r.meshes.length = 0
  · have : r.meshes = [] := List.length_eq_zero.mp h
    simp [h, this, processRecords]
  · simp only [h, if_false]
    split <;> rfl

theorem renderModel_warnings (r : ImportResult) (t a : ℚ) :
    (renderModel r t a).warnings = (processRecords r.meshes).2 := by
  unfold renderModel
  by_cases h : r.meshes.length = 0
  · have : r.meshes = [] := List.length_eq_zero.mp h
    simp [h, this, processRecords]
  · simp only [h, if_false]
    split <;> rfl

theorem renderModel_camera_of_bbox_none (r : ImportResult) (t a : ℚ)
    (h : sceneBBox (processRecords r.meshes).1 = none) :
    (renderModel r t a).camera = resetPose := by
  unfold renderModel
  by_cases hlen : r.meshes.length = 0
  · simp [hlen]
  · simp [hlen, h]

theorem renderModel_camera_of_bbox_some (r : ImportResult) (t a : ℚ)
    (box : BBox3) (h : sceneBBox (processRecords r.meshes).1 = some box) :
    (renderModel r t a).camera = fitCamera box t a := by
  unfold renderModel
  have hlen : ¬ r.meshes.length = 0 := by
    intro h0
    rw [List.length_eq_zero.mp h0] at h
    simp [processRecords, sceneBBox] at h
  simp [hlen, h]

/-- Two lists that are not suffixes of one another cannot both be suffixes
of the same list. -/
theorem isSuffixOf_exclusive (a b f : List Char)
    (hab : a.isSuffixOf b = false) (hba : b.isSuffixOf a = false)
    (h : a.isSuffixOf f = true) : b.isSuffixOf f = false := by
  cases hc : b.isSuffixOf f with
  | false => rfl
  | true =>
    have h₁ : a <:+ f := List.isSuffixOf_iff_suffix.mp h
    have h₂ : b <:+ f := List.isSuffixOf_iff_suffix.mp hc
    rcases List.suffix_or_suffix_of_suffix h₁ h₂ with hs | hs
    · exact absurd (List.isSuffixOf_iff_suffix.mpr hs) (by simp [hab])
    · exact absurd (List.isSuffixOf_iff_suffix.mpr hs) (by simp [hba])

theorem dispatchLower_eq_step (f : List Char) :
    dispatchLower f = some ImportEntry.step ↔
      (extStep.isSuffixOf f = true ∨ extStp.isSuffixOf f = true) := by
  constructor
  · intro h
    unfold dispatchLower at h
    by_cases h₁ : (extStep.isSuffixOf f || extStp.isSuffixOf f) = true
    · simpa using h₁
    · rw [if_neg h₁] at h
      by_cases h₂ : (extIges.isSuffixOf f || extIgs.isSuffixOf f) = true
      · rw [if_pos h₂] at h
        simp at h
      · rw [if_neg h₂] at h
        by_cases h₃ : extBrep.isSuffixOf f = true
        · rw [if_pos h₃] at h
          simp at h
        · rw [if_neg h₃] at h
          simp at h
  · intro h
    have h₁ : (extStep.isSuffixOf f || extStp.isSuffixOf f) = true := by
      rcases h with h | h <;> simp [h]
    unfold dispatchLower
    rw [if_pos h₁]

theorem dispatchLower_eq_iges (f : List Char) :
    dispatchLower f = some ImportEntry.iges ↔
      (extIges.isSuffixOf f = true ∨ extIgs.isSuffixOf f = true) := by
  constructor
  · intro h
    unfold dispatchLower at h
    by_cases h₁ : (extStep.isSuffixOf f || extStp.isSuffixOf f) = true
    · rw [if_pos h₁] at h
      simp at h
    · rw [if_neg h₁] at h
      by_cases h₂ : (extIges.isSuffixOf f || extIgs.isSuffixOf f) = true
      · simpa using h₂
      · rw [if_neg h₂] at h
        by_cases h₃ : extBrep.isSuffixOf f = true
        · rw [if_pos h₃] at h
          simp at h
        · rw [if_neg h₃] at h
          simp at h
  · intro h
    have h₂ : (extIges.isSuffixOf f || extIgs.isSuffixOf f) = true := by
      rcases h with h | h <;> simp [h]
    have hstep : extStep.isSuffixOf f = false := by
      rcases h with h | h
      · exact isSuffixOf_exclusive extIges extStep f (by decide) (by decide) h
      · exact isSuffixOf_exclusive extIgs extStep f (by decide) (by decide) h
    have hstp : extStp.isSuffixOf f = false := by
      rcases h with h | h
      · exact isSuffixOf_exclusive extIges extStp f (by decide) (by decide) h
      · exact isSuffixOf_exclusive extIgs extStp f (by decide) (by decide) h
    unfold dispatchLower
    rw [if_neg (by simp [hstep, hstp]), if_pos h₂]

theorem dispatchLower_eq_brep (f : List Char) :
    dispatchLower f = some ImportEntry.brep ↔ extBrep.isSuffixOf f = true := by
  constructor
  · intro h
    unfold dispatchLower at h
    by_cases h₁ : (extStep.isSuffixOf f || extStp.isSuffixOf f) = true
    · rw [if_pos h₁] at h
      simp at h
    · rw [if_neg h₁] at h
      by_cases h₂ : (extIges.isSuffixOf f || extIgs.isSuffixOf f) = true
      · rw [if_pos h₂] at h
        simp at h
      · rw [if_neg h₂] at h
        by_cases h₃ : extBrep.isSuffixOf f = true
        · exact h₃
        · rw [if_neg h₃] at h
          simp at h
  · intro h
    have hstep : extStep.isSuffixOf f = false :=
      isSuffixOf_exclusive extBrep extStep f (by decide) (by decide) h
    have hstp : extStp.isSuffixOf f = false :=
      isSuffixOf_exclusive extBrep extStp f (by decide) (by decide) h
    have higes : extIges.isSuffixOf f = false :=
      isSuffixOf_exclusive extBrep extIges f (by decide) (by decide) h
    have higs : extIgs.isSuffixOf f = false :=
      isSuffixOf_exclusive extBrep extIgs f (by decide) (by decide) h
    unfold dispatchLower
    rw [if_neg (by simp [hstep, hstp]), if_neg (by simp [higes, higs]),
      if_pos h]

theorem dispatchLower_eq_none (f : List Char) :
    dispatchLower f = none ↔
      (extStep.isSuffixOf f = false ∧ extStp.isSuffixOf f = false
        ∧ extIges.isSuffixOf f = false ∧ extIgs.isSuffixOf f = false
        ∧ extBrep.isSuffixOf f = false) := by
  unfold dispatchLower
  by_cases h₁ : (extStep.isSuffixOf f || extStp.isSuffixOf f) = true
  · rw [if_pos h₁]
    simp only [Bool.or_eq_true] at h₁
    constructor
    · intro h
      simp at h
    · rintro ⟨ha, hb, -⟩
      rcases h₁ with h | h
      · rw [ha] at h
        cases h
      · rw [hb] at h
        cases h
  · rw [if_neg h₁]
    simp only [Bool.or_eq_true, not_or, Bool.not_eq_true] at h₁
    obtain ⟨ha, hb⟩ := h₁
    by_cases h₂ : (extIges.isSuffixOf f || extIgs.isSuffixOf f) = true
    · rw [if_pos h₂]
      simp only [Bool.or_eq_true] at h₂
      constructor
      · intro h
        simp at h
      · rintro ⟨-, -, hc, hd, -⟩
        rcases h₂ with h | h
        · rw [hc] at h
          cases h
        · rw [hd] at h
          cases h
    · rw [if_neg h₂]
      simp only [Bool.or_eq_true, not_or, Bool.not_eq_true] at h₂
      obtain ⟨hc, hd⟩ := h₂
      by_cases h₃ : extBrep.isSuffixOf f = true
      · rw [if_pos h₃]
        constructor
        · intro h
          simp at h
        · rintro ⟨-, -, -, -, he⟩
          rw [he] at h₃
          cases h₃
      · rw [if_neg h₃]
        rw [Bool.not_eq_true] at h₃
        exact ⟨fun _ => ⟨ha, hb, hc, hd, h₃⟩, fun _ => rfl⟩

/-! ### Claims -/

/-- Claim C1: for every ImportResult with success = true, mesh
materialization skips (emitting a warning) every MeshRecord lacking
`position.array` or `index.array`, produces no RenderableMesh for it, and
produces exactly one RenderableMesh per valid record; no invalid record
aborts processing of the remaining records (the model group is the
`filterMap` over the full record list). -/
theorem claim_C1_partial_materialization (r : ImportResult)
    (h : r.success = true) (t a : ℚ) :
    (renderModel r t a).meshes = r.meshes.filterMap buildMesh
    ∧ (renderModel r t a).meshes.length
        = (r.meshes.filter (fun m => isValidRecord m)).length
    ∧ (renderModel r t a).warnings
        = (r.meshes.filter (fun m => !isValidRecord m)).map skipWarning
    ∧ (∀ m ∈ r.meshes, isValidRecord m = false → buildMesh m = none)
    ∧ (∀ m ∈ r.meshes, isValidRecord m = true → (buildMesh m).isSome = true) := by
  refine ⟨?_, ?_, ?_, ?_, ?_⟩
  · rw [renderModel_meshes, processRecords_fst]
  · rw [renderModel_meshes, processRecords_fst, length_filterMap_buildMesh]
  · rw [renderModel_warnings, processRecords_snd]
  · intro m _ hv
    exact (buildMesh_eq_none_iff m).mpr hv
  · intro m _ hv
    exact (buildMesh_isSome_iff m).mpr hv

theorem claim_C1_witness :
    mixedResult.success = true
    ∧ (renderModel mixedResult 1 1).meshes.length = 1
    ∧ (renderModel mixedResult 1 1).warnings.length = 1 := by
  refine ⟨rfl, ?_, ?_⟩
  · rw [(claim_C1_partial_materialization mixedResult rfl 1 1).2.1]
    rfl
  · rw [(claim_C1_partial_materialization mixedResult rfl 1 1).2.2.1]
    rfl

/-- Claim C2: for every valid MeshRecord the index element width is chosen
from the vertex count V = position length / 3 alone: 16-bit iff V ≤ 65535,
32-bit iff V > 65535. -/
theorem claim_C2_index_width (m : MeshRecord) (pos : List ℚ) (idx : List Nat)
    (V : Nat) (hp : m.position = some pos) (hi : m.index = some idx)
    (hV : pos.length = 3 * V) :
    ∃ rm, buildMesh m = some rm
      ∧ (rm.indexBits = 16 ↔ V ≤ 65535)
      ∧ (rm.indexBits = 32 ↔ 65535 < V) := by
  refine ⟨_, buildMesh_eq_some m pos idx hp hi, ?_, ?_⟩
  · show indexElemBits pos.length = 16 ↔ V ≤ 65535
    rw [hV, indexElemBits_eq]
    by_cases h : 196605 < 3 * V
    · rw [if_pos h]
      constructor <;> intro <;> omega
    · rw [if_neg h]
      constructor <;> intro <;> omega
  · show indexElemBits pos.length = 32 ↔ 65535 < V
    rw [hV, indexElemBits_eq]
    by_cases h : 196605 < 3 * V
    · rw [if_pos h]
      constructor <;> intro <;> omega
    · rw [if_neg h]
      constructor <;> intro <;> omega

theorem claim_C2_witness :
    triRecord.position = some triPos ∧ triPos.length = 3 * 3
    ∧ ∃ rm, buildMesh triRecord = some rm ∧ rm.indexBits = 16 := by
  obtain ⟨rm, hb, h16, _⟩ :=
    claim_C2_index_width triRecord triPos [0, 1, 2] 3 rfl rfl rfl
  exact ⟨rfl, rfl, rm, hb, h16.mpr (by omega)⟩

/-- Claim C6: material color selection is exact: a present 3-channel color
is normalized channel-wise by dividing by 255 ([255, 0, 128] gives exactly
(1, 0, 128/255)); an absent color or one without exactly 3 channels gives
the fixed default light-gray. -/
theorem claim_C6_material_color (m : MeshRecord) (pos : List ℚ)
    (idx : List Nat) (hp : m.position = some pos) (hi : m.index = some idx) :
    ∃ rm, buildMesh m = some rm
      ∧ (∀ r g b, m.color = some [r, g, b] →
          rm.color = ((r : ℚ) / 255, (g : ℚ) / 255, (b : ℚ) / 255))
      ∧ materialColor (some [255, 0, 128]) = (1, 0, 128 / 255)
      ∧ (m.color = none → rm.color = defaultColor)
      ∧ (∀ l, m.color = some l → l.length ≠ 3 → rm.color = defaultColor) := by
  refine ⟨_, buildMesh_eq_some m pos idx hp hi, ?_, ?_, ?_, ?_⟩
  · intro r g b hc
    show materialColor m.color = _
    rw [hc]
    rfl
  · show materialColor (some [255, 0, 128]) = (1, 0, 128 / 255)
    rw [show materialColor (some [255, 0, 128])
          = ((255 : ℚ) / 255, (0 : ℚ) / 255, (128 : ℚ) / 255) from rfl]
    norm_num
  · intro hc
    show materialColor m.color = defaultColor
    rw [hc]
    rfl
  · intro l hc hlen
    show materialColor m.color = defaultColor
    rw [hc]
    rcases l with _ | ⟨x, _ | ⟨y, _ | ⟨z, _ | ⟨w, tl⟩⟩⟩⟩
    · rfl
    · rfl
    · rfl
    · exact absurd rfl hlen
    · rfl

theorem claim_C6_witness :
    magentaRecord.position = some [(0 : ℚ), 0, 0]
    ∧ magentaRecord.color = some [255, 0, 128]
    ∧ ∃ rm, buildMesh magentaRecord = some rm
        ∧ rm.color = (1, 0, 128 / 255) := by
  obtain ⟨rm, hb, hc, _⟩ :=
    claim_C6_material_color magentaRecord [(0 : ℚ), 0, 0] [0] rfl rfl
  refine ⟨rfl, rfl, rm, hb, ?_⟩
  rw [hc 255 0 128 rfl]
  norm_num

/-- Claim C10 (implicit): materialization never validates index values
against the vertex count; each index value passes through the typed-array
constructor and is stored reduced mod 2^16 (V ≤ 65535 vertices) or mod 2^32
(otherwise), so an out-of-range triangle index wraps silently instead of
being rejected or causing the record to be skipped. -/
theorem claim_C10_index_wrapping (m : MeshRecord) (pos : List ℚ)
    (idx : List Nat) (V : Nat) (hp : m.position = some pos)
    (hi : m.index = some idx) (hV : pos.length = 3 * V) :
    ∃ rm, buildMesh m = some rm
      ∧ (V ≤ 65535 → rm.indices = idx.map (fun v => v % 2 ^ 16))
      ∧ (65535 < V → rm.indices = idx.map (fun v => v % 2 ^ 32)) := by
  refine ⟨_, buildMesh_eq_some m pos idx hp hi, ?_, ?_⟩
  · intro hle
    show idx.map (fun v => v % 2 ^ indexElemBits pos.length) = _
    have hbits : indexElemBits pos.length = 16 := by
      rw [hV, indexElemBits_eq, if_neg (by omega)]
    rw [hbits]
  · intro hlt
    show idx.map (fun v => v % 2 ^ indexElemBits pos.length) = _
    have hbits : indexElemBits pos.length = 32 := by
      rw [hV, indexElemBits_eq, if_pos (by omega)]
    rw [hbits]

theorem claim_C10_witness :
    wrapRecord.position = some [(0 : ℚ), 0, 0]
    ∧ wrapRecord.index = some [0, 1, 70000]
    ∧ ∃ rm, buildMesh wrapRecord = some rm ∧ rm.indices = [0, 1, 4464] := by
  obtain ⟨rm, hb, h16, _⟩ :=
    claim_C10_index_wrapping wrapRecord [(0 : ℚ), 0, 0] [0, 1, 70000] 1
      rfl rfl rfl
  refine ⟨rfl, rfl, rm, hb, ?_⟩
  rw [h16 (by omega)]
  rfl

/-- Claim C3, counterexample: a successful import whose only record has
present-but-empty `position.array` and `index.array` (truthy in JS, hence
not skipped) produces one RenderableMesh, yet the union bounding box is
empty, so the code takes the `resetCameraView` fallback the claim reserves
for the zero-mesh case — there is no bounding-box center `C` to fit to,
refuting the claim's "otherwise" branch. -/
theorem claim_C3_counterexample :
    (renderModel emptyMeshResult 1 1).meshes.length = 1
    ∧ sceneBBox (renderModel emptyMeshResult 1 1).meshes = none
    ∧ (renderModel emptyMeshResult 1 1).camera = resetPose := by
  have hb := buildMesh_eq_some emptyArraysRecord [] [] rfl rfl
  have hm : (renderModel emptyMeshResult 1 1).meshes
      = [{ positions := []
           normals := none
           indexBits := indexElemBits 0
           indices := []
           color := defaultColor }] := by
    rw [renderModel_meshes]
    show (processRecords [emptyArraysRecord]).1 = _
    unfold processRecords
    rw [hb]
    simp [emptyArraysRecord, materialColor, processRecords]
  have hsb : sceneBBox (processRecords emptyMeshResult.meshes).1 = none := by
    rw [← renderModel_meshes emptyMeshResult 1 1, hm]
    rfl
  refine ⟨?_, ?_, ?_⟩
  · rw [hm]
    rfl
  · rw [hm]
    rfl
  · exact renderModel_camera_of_bbox_none emptyMeshResult 1 1 hsb

/-- Claim C3 (amended): scene fitting branches on emptiness of the union
bounding box, not on the mesh count: if the union box of the materialized
meshes is empty (zero meshes, or every produced mesh has no vertices) the
camera is placed at (5,5,5) aimed at the origin with the orbit target at
the origin and resynchronized; otherwise, with box center C, maximum extent
maxDim and tanHalfFov = tan(fov/2), the distance is d = |maxDim/2/tanHalfFov|
multiplied by the aspect ratio exactly when aspect > 1, the camera is placed
at C + (0, 0.5·d, d) aimed at C, and the orbit target is set to C and
resynchronized. -/
theorem claim_C3_scene_fit (r : ImportResult) (h : r.success = true)
    (t a : ℚ) :
    (sceneBBox (renderModel r t a).meshes = none →
      (renderModel r t a).camera = resetPose)
    ∧ (∀ box, sceneBBox (renderModel r t a).meshes = some box →
        (renderModel r t a).camera = fitCamera box t a)
    ∧ resetPose = ⟨(5, 5, 5), (0, 0, 0), (0, 0, 0), true⟩
    ∧ (∀ box : BBox3,
        fitCamera box t a =
          let c : Vec3 := ((box.lo.1 + box.hi.1) / 2,
            (box.lo.2.1 + box.hi.2.1) / 2, (box.lo.2.2 + box.hi.2.2) / 2)
          let maxDim := max (box.hi.1 - box.lo.1)
            (max (box.hi.2.1 - box.lo.2.1) (box.hi.2.2 - box.lo.2.2))
          let d := |maxDim / 2 / t| * (if 1 < a then a else 1)
          ⟨(c.1, c.2.1 + d * (1 / 2), c.2.2 + d), c, c, true⟩) := by
  refine ⟨?_, ?_, rfl, fun box => rfl⟩
  · intro hn
    rw [renderModel_meshes] at hn
    exact renderModel_camera_of_bbox_none r t a hn
  · intro box hsome
    rw [renderModel_meshes] at hsome
    exact renderModel_camera_of_bbox_some r t a box hsome

theorem claim_C3_witness :
    dotResult.success = true
    ∧ sceneBBox (renderModel dotResult 1 1).meshes
        = some ⟨(2, 3, 4), (2, 3, 4)⟩
    ∧ (renderModel dotResult 1 1).camera
        = fitCamera ⟨(2, 3, 4), (2, 3, 4)⟩ 1 1 := by
  have hb := buildMesh_eq_some dotRecord [2, 3, 4] [0] rfl rfl
  have hsb : sceneBBox (renderModel dotResult 1 1).meshes
      = some ⟨(2, 3, 4), (2, 3, 4)⟩ := by
    rw [renderModel_meshes]
    show sceneBBox (processRecords [dotRecord]).1 = _
    simp [processRecords, hb, sceneBBox, meshBBox, triples, expandPoint,
      unionBoxes]
  exact ⟨rfl, hsb, (claim_C3_scene_fit dotResult rfl 1 1).2.1 _ hsb⟩

/-- Claim C4: import dispatch is case-insensitive on the file extension and
total: a name whose lowercase form ends in .step/.stp selects the STEP
entry point, .iges/.igs the IGES entry point, .brep the BREP entry point,
and for every other name an "unsupported file type" message is produced,
no import entry point is selected and the external capability is never
invoked. -/
theorem claim_C4_dispatch (n : List Char) :
    (selectImport n = some ImportEntry.step ↔
      (extStep.isSuffixOf (lowerName n) = true
        ∨ extStp.isSuffixOf (lowerName n) = true))
    ∧ (selectImport n = some ImportEntry.iges ↔
      (extIges.isSuffixOf (lowerName n) = true
        ∨ extIgs.isSuffixOf (lowerName n) = true))
    ∧ (selectImport n = some ImportEntry.brep ↔
      extBrep.isSuffixOf (lowerName n) = true)
    ∧ (∀ m, lowerName m = lowerName n → selectImport m = selectImport n)
    ∧ (selectImport n = none ↔
      ¬(extStep.isSuffixOf (lowerName n) = true
        ∨ extStp.isSuffixOf (lowerName n) = true
        ∨ extIges.isSuffixOf (lowerName n) = true
        ∨ extIgs.isSuffixOf (lowerName n) = true
        ∨ extBrep.isSuffixOf (lowerName n) = true))
    ∧ (selectImport n = none →
      ∀ call t a,
        (processFile n call t a).invoked = none
        ∧ (processFile n call t a).errorMsg = some unsupportedMsg
        ∧ (processFile n call t a).modelGroup = []) := by
  refine ⟨dispatchLower_eq_step (lowerName n), dispatchLower_eq_iges (lowerName n),
    dispatchLower_eq_brep (lowerName n), ?_, ?_, ?_⟩
  · intro m hm
    unfold selectImport
    rw [hm]
  · rw [show (selectImport n = none) = (dispatchLower (lowerName n) = none)
        from rfl]
    rw [dispatchLower_eq_none (lowerName n)]
    constructor
    · rintro ⟨ha, hb, hc, hd, he⟩
      simp [ha, hb, hc, hd, he]
    · intro h
      simp only [not_or, Bool.not_eq_true] at h
      exact ⟨h.1, h.2.1, h.2.2.1, h.2.2.2.1, h.2.2.2.2⟩
  · intro h call t a
    unfold processFile
    rw [h]
    exact ⟨rfl, rfl, rfl⟩

theorem claim_C4_witness :
    selectImport (("Part.STEP").toList) = some ImportEntry.step
    ∧ selectImport (("model.igs").toList) = some ImportEntry.iges
    ∧ selectImport (("shape.BRep").toList) = some ImportEntry.brep
    ∧ selectImport (("model.xyz").toList) = none := by
  refine ⟨?_, ?_, ?_, ?_⟩
  · exact (claim_C4_dispatch (("Part.STEP").toList)).1.mpr (Or.inl (by decide))
  · exact (claim_C4_dispatch (("model.igs").toList)).2.1.mpr (Or.inr (by decide))
  · exact (claim_C4_dispatch (("shape.BRep").toList)).2.2.1.mpr (by decide)
  · exact (claim_C4_dispatch (("model.xyz").toList)).2.2.2.2.1.mpr (by decide)

/-- Claim C5: whenever the external import capability returns
success = false or raises an exception, processFile produces a single
user-visible error message that includes the underlying reason when
available (a non-empty reason string is a suffix of the message; the JS
falsy check `importResult.error || 'Unknown error.'` substitutes the
"Unknown error." fallback for an absent or empty reason), the fault is
caught rather than propagated (the embedding is a total function on both
outcomes), and the model group is left cleared. -/
theorem claim_C5_import_failure (n : List Char) (entry : ImportEntry)
    (call : ImportEntry → Except String ImportResult) (t a : ℚ)
    (hsel : selectImport n = some entry) :
    (∀ msg, call entry = Except.error msg →
      (processFile n call t a).errorMsg = some (importExnMsg ++ msg)
      ∧ (processFile n call t a).modelGroup = [])
    ∧ (∀ r, call entry = Except.ok r → r.success = false →
        (∀ e, r.error = some e → e ≠ "" →
          (processFile n call t a).errorMsg = some (importFailedMsg ++ e))
        ∧ ((r.error = none ∨ r.error = some "") →
          (processFile n call t a).errorMsg
            = some (importFailedMsg ++ unknownErrorMsg))
        ∧ (processFile n call t a).modelGroup = []) := by
  have hpf : processFile n call t a =
      (match call entry with
       | Except.error msg =>
         ⟨some (importExnMsg ++ msg), none, some entry, [], []⟩
       | Except.ok r =>
         if r.success then
           ⟨none, some r, some entry, (renderModel r t a).meshes,
            (renderModel r t a).warnings⟩
         else
           ⟨some (importFailedMsg ++ orElseFalsy r.error unknownErrorMsg),
            some r, some entry, [], []⟩) := by
    unfold processFile
    rw [hsel]
  have hok : ∀ r, call entry = Except.ok r →
      processFile n call t a =
        (if r.success then
          (⟨none, some r, some entry, (renderModel r t a).meshes,
            (renderModel r t a).warnings⟩ : ProcessOutcome)
         else
          ⟨some (importFailedMsg ++ orElseFalsy r.error unknownErrorMsg),
           some r, some entry, [], []⟩) := by
    intro r hc
    rw [hpf, hc]
  constructor
  · intro msg hc
    rw [hpf, hc]
    exact ⟨rfl, rfl⟩
  · intro r hc hsucc
    rw [hok r hc, if_neg (by simp [hsucc])]
    refine ⟨fun e he hne => ?_, fun he => ?_, rfl⟩
    · show some (importFailedMsg ++ orElseFalsy r.error unknownErrorMsg) = _
      rw [he]
      simp [orElseFalsy, hne]
    · show some (importFailedMsg ++ orElseFalsy r.error unknownErrorMsg) = _
      rcases he with he | he
      · rw [he]
        simp [orElseFalsy]
      · rw [he]
        simp [orElseFalsy]

theorem claim_C5_witness :
    selectImport (("a.step").toList) = some ImportEntry.step
    ∧ (processFile (("a.step").toList)
        (fun _ => Except.error ("wasm crashed")) 1 1).errorMsg
        = some (importExnMsg ++ ("wasm crashed"))
    ∧ (processFile (("a.step").toList)
        (fun _ => Except.error ("wasm crashed")) 1 1).modelGroup = []
    ∧ (processFile (("a.step").toList)
        (fun _ => Except.ok ⟨false, some ("boom"), []⟩) 1 1).errorMsg
        = some (importFailedMsg ++ ("boom"))
    ∧ (processFile (("a.step").toList)
        (fun _ => Except.ok ⟨false, some "", []⟩) 1 1).errorMsg
        = some (importFailedMsg ++ unknownErrorMsg) := by
  have hsel : selectImport (("a.step").toList) = some ImportEntry.step := by
    decide
  have h := (claim_C5_import_failure (("a.step").toList) ImportEntry.step
    (fun _ => Except.error ("wasm crashed")) 1 1 hsel).1 ("wasm crashed") rfl
  have hboom := ((claim_C5_import_failure (("a.step").toList) ImportEntry.step
    (fun _ => Except.ok ⟨false, some ("boom"), []⟩) 1 1 hsel).2
    ⟨false, some ("boom"), []⟩ rfl rfl).1 ("boom") rfl (by decide)
  have hempty := ((claim_C5_import_failure (("a.step").toList) ImportEntry.step
    (fun _ => Except.ok ⟨false, some "", []⟩) 1 1 hsel).2
    ⟨false, some "", []⟩ rfl rfl).2.1 (Or.inr rfl)
  exact ⟨hsel, h.1, h.2, hboom, hempty⟩

theorem meshDisposeEvents_cons (i : Nat) (ids : List Nat) :
    meshDisposeEvents (i :: ids)
      = TEvent.disposeGeometry i :: TEvent.disposeMaterial i ::
          meshDisposeEvents ids := by
  simp [meshDisposeEvents]

theorem countP_geom_meshDisposeEvents (ids : List Nat) :
    (meshDisposeEvents ids).countP isGeomDispose = ids.length := by
  induction ids with
  | nil => rfl
  | cons i ids ih =>
    rw [meshDisposeEvents_cons]
    simp [List.countP_cons, isGeomDispose, ih]

theorem countP_mat_meshDisposeEvents (ids : List Nat) :
    (meshDisposeEvents ids).countP isMatDispose = ids.length := by
  induction ids with
  | nil => rfl
  | cons i ids ih =>
    rw [meshDisposeEvents_cons]
    simp [List.countP_cons, isMatDispose, ih]

theorem count_geom_meshDisposeEvents (ids : List Nat) (i : Nat) :
    (meshDisposeEvents ids).count (TEvent.disposeGeometry i) = ids.count i := by
  induction ids with
  | nil => rfl
  | cons j ids ih =>
    rw [meshDisposeEvents_cons]
    by_cases hji : j = i
    · subst hji
      simp [List.count_cons, ih]
    · simp [List.count_cons, ih, hji]

theorem count_mat_meshDisposeEvents (ids : List Nat) (i : Nat) :
    (meshDisposeEvents ids).count (TEvent.disposeMaterial i) = ids.count i := by
  induction ids with
  | nil => rfl
  | cons j ids ih =>
    rw [meshDisposeEvents_cons]
    by_cases hji : j = i
    · subst hji
      simp [List.count_cons, ih]
    · simp [List.count_cons, ih, hji]

theorem removeFromGroup_not_mem_meshDisposeEvents (ids : List Nat) (i : Nat) :
    TEvent.removeFromGroup i ∉ meshDisposeEvents ids := by
  induction ids with
  | nil => simp [meshDisposeEvents]
  | cons j ids ih =>
    rw [meshDisposeEvents_cons]
    simp [ih]

theorem dispose_mem_meshDisposeEvents (ids : List Nat) (i : Nat)
    (h : i ∈ ids) :
    TEvent.disposeGeometry i ∈ meshDisposeEvents ids
      ∧ TEvent.disposeMaterial i ∈ meshDisposeEvents ids := by
  induction ids with
  | nil => cases h
  | cons j ids ih =>
    rw [meshDisposeEvents_cons]
    rcases List.mem_cons.mp h with h | h
    · subst h
      simp
    · have := ih h
      simp [this.1, this.2]

theorem meshDisposeEvents_classify (ids : List Nat) :
    ∀ e ∈ meshDisposeEvents ids, (isGeomDispose e || isMatDispose e) = true := by
  induction ids with
  | nil => simp [meshDisposeEvents]
  | cons j ids ih =>
    rw [meshDisposeEvents_cons]
    intro e he
    rcases List.mem_cons.mp he with h | h
    · subst h
      rfl
    · rcases List.mem_cons.mp h with h | h
      · subst h
        rfl
      · exact ih e h

theorem teardownEvents_full (ids : List Nat) :
    teardownEvents ⟨true, true, true, some ids⟩
      = TEvent.cancelFrame :: TEvent.disposeRenderer ::
          TEvent.disposeControls ::
          (meshDisposeEvents ids ++ [TEvent.dropSceneRefs]) := by
  simp [teardownEvents]

/-- Claim C7, counterexample: with a pending frame callback, a live
renderer, live controls and one mesh in the scene, the actual teardown
trace disposes the renderer and the controls BEFORE the mesh's geometry
and material, and never removes the mesh from the model group — the order
stated in the claim (mesh removal and release before renderer/controls
release) does not hold. -/
theorem claim_C7_counterexample :
    teardownEvents ⟨true, true, true, some [0]⟩
      = [TEvent.cancelFrame, TEvent.disposeRenderer, TEvent.disposeControls,
         TEvent.disposeGeometry 0, TEvent.disposeMaterial 0,
         TEvent.dropSceneRefs]
    ∧ TEvent.removeFromGroup 0 ∉ teardownEvents ⟨true, true, true, some [0]⟩
    ∧ (teardownEvents ⟨true, true, true, some [0]⟩).indexOf
          TEvent.disposeRenderer
        < (teardownEvents ⟨true, true, true, some [0]⟩).indexOf
          (TEvent.disposeGeometry 0) := by
  decide

/-- Claim C7 (amended): teardown performs its steps in this order: first
the pending per-frame render callback is cancelled, then the renderer is
released, then the interaction controller, then each mesh's geometry and
material are released (via scene traversal, without removing the meshes
from the model group), and only then are the scene, camera, and model
group references dropped. -/
theorem claim_C7_teardown_order (ids : List Nat) :
    teardownEvents ⟨true, true, true, some ids⟩
      = TEvent.cancelFrame :: TEvent.disposeRenderer ::
          TEvent.disposeControls ::
          (meshDisposeEvents ids ++ [TEvent.dropSceneRefs])
    ∧ (∀ i, TEvent.removeFromGroup i ∉
        teardownEvents ⟨true, true, true, some ids⟩)
    ∧ (∀ i ∈ ids, TEvent.disposeGeometry i ∈ meshDisposeEvents ids
        ∧ TEvent.disposeMaterial i ∈ meshDisposeEvents ids)
    ∧ (∀ e ∈ meshDisposeEvents ids,
        (isGeomDispose e || isMatDispose e) = true) := by
  refine ⟨teardownEvents_full ids, ?_,
    fun i h => dispose_mem_meshDisposeEvents ids i h,
    meshDisposeEvents_classify ids⟩
  intro i
  rw [teardownEvents_full]
  simp [removeFromGroup_not_mem_meshDisposeEvents ids i]

theorem claim_C7_witness :
    teardownEvents ⟨true, true, true, some [0, 1]⟩
      = TEvent.cancelFrame :: TEvent.disposeRenderer ::
          TEvent.disposeControls ::
          (meshDisposeEvents [0, 1] ++ [TEvent.dropSceneRefs]) :=
  (claim_C7_teardown_order [0, 1]).1

/-- Claim C8: teardown releases the geometry and the material of every mesh
in the model group exactly once: the number of geometry dispose events and
of material dispose events each equals the number of meshes, each
individual object's dispose count equals its multiplicity in the group
(hence, for a duplicate-free group, exactly one — no double release and no
leak). -/
theorem claim_C8_dispose_exactly_once (ids : List Nat) :
    ((teardownEvents ⟨true, true, true, some ids⟩).countP isGeomDispose
        = ids.length)
    ∧ ((teardownEvents ⟨true, true, true, some ids⟩).countP isMatDispose
        = ids.length)
    ∧ (∀ i, (teardownEvents ⟨true, true, true, some ids⟩).count
        (TEvent.disposeGeometry i) = ids.count i)
    ∧ (∀ i, (teardownEvents ⟨true, true, true, some ids⟩).count
        (TEvent.disposeMaterial i) = ids.count i)
    ∧ (∀ i ∈ ids, ids.Nodup →
        (teardownEvents ⟨true, true, true, some ids⟩).count
            (TEvent.disposeGeometry i) = 1
        ∧ (teardownEvents ⟨true, true, true, some ids⟩).count
            (TEvent.disposeMaterial i) = 1) := by
  have hg : ∀ i, (teardownEvents ⟨true, true, true, some ids⟩).count
      (TEvent.disposeGeometry i) = ids.count i := by
    intro i
    rw [teardownEvents_full]
    simp [List.count_cons, count_geom_meshDisposeEvents ids i]
  have hm : ∀ i, (teardownEvents ⟨true, true, true, some ids⟩).count
      (TEvent.disposeMaterial i) = ids.count i := by
    intro i
    rw [teardownEvents_full]
    simp [List.count_cons, count_mat_meshDisposeEvents ids i]
  refine ⟨?_, ?_, hg, hm, ?_⟩
  · rw [teardownEvents_full]
    simp [List.countP_cons, isGeomDispose, countP_geom_meshDisposeEvents ids]
  · rw [teardownEvents_full]
    simp [List.countP_cons, isMatDispose, countP_mat_meshDisposeEvents ids]
  · intro i hmem hnd
    rw [hg i, hm i, List.count_eq_one_of_mem hnd hmem]
    exact ⟨rfl, rfl⟩

theorem claim_C8_witness :
    (teardownEvents ⟨true, true, true, some [0, 1]⟩).countP isGeomDispose = 2
    ∧ (teardownEvents ⟨true, true, true, some [0, 1]⟩).count
        (TEvent.disposeGeometry 0) = 1 := by
  constructor
  · rw [(claim_C8_dispose_exactly_once [0, 1]).1]
    rfl
  · rw [(claim_C8_dispose_exactly_once [0, 1]).2.2.1 0]
    rfl

/-- Claim C9: clearing the model group is idempotent: the clear operation
always leaves the group empty, and invoking it on an already-empty group
(in particular a group that has just been cleared) changes nothing and
releases nothing; the operation is a total function, so it never signals an
error. -/
theorem claim_C9_clear_idempotent :
    clearModelRun [] = ([], [])
    ∧ (∀ g, (clearModelRun g).1 = [])
    ∧ (∀ g, clearModelRun (clearModelRun g).1 = ((clearModelRun g).1, [])) := by
  have hfst : ∀ g : List Nat, (clearModelRun g).1 = [] := by
    intro g
    induction g with
    | nil => rfl
    | cons i g ih => simp [clearModelRun, ih]
  refine ⟨rfl, hfst, fun g => ?_⟩
  rw [hfst g]
  rfl

theorem claim_C9_witness :
    clearModelRun (clearModelRun [3, 5]).1 = ((clearModelRun [3, 5]).1, []) :=
  claim_C9_clear_idempotent.2.2 [3, 5]

end OcctViewer
